import Mathlib

/-!
Verification of the vibration-analysis core of the `fault-detection` repository.

The Python sources embedded here (shallowly, over `ℚ` for machine floats) are:
 * `backend/app/services/fft_analysis.py` — peak search, harmonic detection,
   fixed-frequency detection, ISO 10816-3 severity classification, and the
   driver `perform_complete_analysis`;
 * `backend/app/services/diagnosis_engine.py` — rule-based fault scoring
   (`perform_enhanced_diagnosis`);
 * `backend/app/routers/machines.py` — per-bearing aggregation across the
   H/V/A axes inside `analyze_fft`.

Modelling conventions:
 * Python floats become `ℚ` wherever the source only adds, multiplies,
   divides and compares; the single square root in the pipeline (the overall
   velocity RMS) is taken in `ℝ` via `Real.sqrt` on a `ℚ` sum of squares.
 * A spectrum (the parallel numpy arrays `freqs`, `amplitudes`) becomes a
   `List (ℚ × ℚ)` of (frequency, amplitude) pairs in bin order.
 * Python `dict` results become structures; string-formatted evidence
   sentences are omitted (no claim depends on their text).
 * `None`-able arguments become `Option`; Python truthiness (`not x`) is
   modelled explicitly where the source relies on it.
-/

set_option autoImplicit false

namespace FaultDetection

/-! ### Generic list helpers

`np.argmax` and Python's `max(..., key=...)` both return the **first**
element attaining the maximum; `argmaxFirst` mirrors that (the accumulator is
replaced only on a strictly larger key). -/

def argmaxFirst {α β : Type} [LinearOrder β] (f : α → β) : List α → Option α
  | [] => none
  | x :: xs => some (xs.foldl (fun b y => if f b < f y then y else b) x)

theorem argmaxFirst_foldl_mem {α β : Type} [LinearOrder β] (f : α → β) :
    ∀ (xs : List α) (x : α), xs.foldl (fun b y => if f b < f y then y else b) x ∈ x :: xs := by
  intro xs
  induction xs with
  | nil => intro x; simp
  | cons y ys ih =>
    intro x
    have h := ih (if f x < f y then y else x)
    simp only [List.foldl_cons]
    rcases List.mem_cons.mp h with h1 | h1
    · rw [h1]
      by_cases hxy : f x < f y <;> simp [hxy]
    · simp [List.mem_cons.mpr (Or.inr (List.mem_cons.mpr (Or.inr h1)))]

theorem argmaxFirst_foldl_le {α β : Type} [LinearOrder β] (f : α → β) :
    ∀ (xs : List α) (x : α) (y : α), y ∈ x :: xs →
      f y ≤ f (xs.foldl (fun b y => if f b < f y then y else b) x) := by
  intro xs
  induction xs with
  | nil =>
    intro x y hy
    simp at hy
    simp [hy]
  | cons z zs ih =>
    intro x y hy
    simp only [List.foldl_cons]
    have hacc : f x ≤ f (if f x < f z then z else x) ∧ f z ≤ f (if f x < f z then z else x) := by
      by_cases h : f x < f z <;> simp [h] <;> [exact le_of_lt h; exact le_of_not_lt h]
    rcases List.mem_cons.mp hy with h1 | h1
    · subst h1
      exact le_trans hacc.1 (ih _ _ (List.mem_cons_self _ _))
    · rcases List.mem_cons.mp h1 with h2 | h2
      · subst h2
        exact le_trans hacc.2 (ih _ _ (List.mem_cons_self _ _))
      · exact ih _ _ (List.mem_cons.mpr (Or.inr h2))

theorem argmaxFirst_mem {α β : Type} [LinearOrder β] (f : α → β) {l : List α} {x : α}
    (h : argmaxFirst f l = some x) : x ∈ l := by
  cases l with
  | nil => simp [argmaxFirst] at h
  | cons a as =>
    simp only [argmaxFirst, Option.some.injEq] at h
    rw [← h]
    exact argmaxFirst_foldl_mem f as a

theorem argmaxFirst_le {α β : Type} [LinearOrder β] (f : α → β) {l : List α} {x : α}
    (h : argmaxFirst f l = some x) : ∀ y ∈ l, f y ≤ f x := by
  cases l with
  | nil => simp [argmaxFirst] at h
  | cons a as =>
    simp only [argmaxFirst, Option.some.injEq] at h
    intro y hy
    rw [← h]
    exact argmaxFirst_foldl_le f as a y hy

theorem argmaxFirst_eq_none_iff {α β : Type} [LinearOrder β] (f : α → β) (l : List α) :
    argmaxFirst f l = none ↔ l = [] := by
  cases l <;> simp [argmaxFirst]

/-- Source `np.linspace(0.0, b, num = M)` (endpoint included, as numpy defaults). -/
def linspace (b : ℚ) (M : ℕ) : List ℚ :=
  (List.range M).map (fun i => if M ≤ 1 then 0 else b * i / (M - 1 : ℕ))

theorem linspace_head (b : ℚ) (M : ℕ) (hM : 1 ≤ M) :
    ∃ rest, linspace b M = 0 :: rest := by
  cases M with
  | zero => omega
  | succ k =>
    refine ⟨((List.range k).map Nat.succ).map
      (fun i => if k + 1 ≤ 1 then 0 else b * i / (k + 1 - 1 : ℕ)), ?_⟩
    simp only [linspace, List.range_succ_eq_map, List.map_cons]
    by_cases h : k + 1 ≤ 1 <;> simp [h]

/-! ### `fft_analysis.py`: peak search and harmonic detection -/

/-- The dict returned by `find_peak_in_band`
(`{'frequency', 'amplitude', 'targetFrequency', 'tolerance'}`). -/
structure Peak where
  frequency : ℚ
  amplitude : ℚ
  targetFrequency : ℚ
  tolerance : ℚ
  deriving DecidableEq, Repr

/-- Source `fft_analysis.find_peak_in_band`: the spectrum point of maximum amplitude
whose frequency lies within `center * (1 ∓ tol)`; `None` when `center ≤ 0` or
no bin falls in the band.  The parallel numpy arrays `freqs`/`amplitudes` are
modelled as one list `s` of (frequency, amplitude) pairs; `np.argmax` picks
the first index of the maximum, as does `argmaxFirst`. -/
def find_peak_in_band (s : List (ℚ × ℚ)) (center : ℚ) (tol : ℚ) : Option Peak :=
  if center ≤ 0 then none
  else
    let lower := center * (1 - tol)
    let upper := center * (1 + tol)
    let band := s.filter (fun p => decide (lower ≤ p.1 ∧ p.1 ≤ upper))
    (argmaxFirst (fun p => p.2) band).map (fun p => ⟨p.1, p.2, center, tol⟩)

/-- Source `freqs[-1]` (last bin frequency).  Python raises `IndexError` on an empty
spectrum; every call site in the pipeline passes a nonempty spectrum, and the
theorems below carry that hypothesis, so the default value is never relied
upon. -/
def lastFreq (s : List (ℚ × ℚ)) : ℚ :=
  ((s.map Prod.fst).getLast?).getD 0

/-- One entry of the list built by `detect_harmonics` (the `label` string
`f'{n}×'` is omitted). -/
structure HarmonicEntry where
  harmonic : ℕ
  targetFrequency : ℚ
  detectedFrequency : ℚ
  amplitude : ℚ
  isSignificant : Bool
  deriving DecidableEq, Repr

/-- Builds the entry appended for order `n` once `find_peak_in_band`
returned a peak `p`, with reference amplitude `ref`
(`is_significant = peak['amplitude'] >= reference_amplitude * 0.1`
with the default `min_amplitude_ratio = 0.1`). -/
def mkHarmonicEntry (rf ref : ℚ) (n : ℕ) (p : Peak) : HarmonicEntry :=
  ⟨n, rf * n, p.frequency, p.amplitude, decide (ref * (1 / 10) ≤ p.amplitude)⟩

/-- The `for n in range(1, num_harmonics + 1)` loop of `detect_harmonics`:
`break` on the first order whose target `n × rf` exceeds `freqs[-1]`,
otherwise append an entry whenever a peak is found in the ±5 % band. -/
def detectHarmonicsLoop (s : List (ℚ × ℚ)) (rf ref maxF : ℚ) : List ℕ → List HarmonicEntry
  | [] => []
  | n :: ns =>
    if maxF < rf * n then []
    else
      match find_peak_in_band s (rf * n) (1 / 20) with
      | some p => mkHarmonicEntry rf ref n p :: detectHarmonicsLoop s rf ref maxF ns
      | none => detectHarmonicsLoop s rf ref maxF ns

/-- Source `fft_analysis.detect_harmonics` with the default arguments
(`num_harmonics = 10`, `tolerance = 0.05`, `min_amplitude_ratio = 0.1`):
returns `[]` for `running_freq ≤ 0`; the reference amplitude is the 1× peak's
amplitude, or `0.1` when no 1× peak exists. -/
def detect_harmonics (s : List (ℚ × ℚ)) (rf : ℚ) : List HarmonicEntry :=
  if rf ≤ 0 then []
  else
    let ref := ((find_peak_in_band s rf (1 / 20)).map Peak.amplitude).getD (1 / 10)
    detectHarmonicsLoop s rf ref (lastFreq s) (List.range' 1 10)

/-- One entry of the list built by `detect_fixed_frequencies`. -/
structure FixedPeak where
  targetFrequency : ℚ
  detectedFrequency : ℚ
  amplitude : ℚ
  deriving DecidableEq, Repr

/-- Source `fft_analysis.detect_fixed_frequencies` with the default catalogue
`[25, 50, 75, 100, 125]` Hz and tolerance 5 %; targets beyond `freqs[-1]` are
skipped (`continue`, not `break`). -/
def detect_fixed_frequencies (s : List (ℚ × ℚ)) : List FixedPeak :=
  ([25, 50, 75, 100, 125] : List ℚ).filterMap (fun t =>
    if lastFreq s < t then none
    else (find_peak_in_band s t (1 / 20)).map (fun p => ⟨t, p.frequency, p.amplitude⟩))

/-! ### `fft_analysis.py`: ISO 10816-3 severity classification -/

/-- ISO zone (A–D). -/
inductive Zone where
  | A
  | B
  | C
  | D
  deriving DecidableEq, Repr

/-- Position of a zone in the order A < B < C < D
(mirrors `severity_order = ['A', 'B', 'C', 'D']` in `machines.py`). -/
def zoneIdx : Zone → ℕ
  | .A => 0
  | .B => 1
  | .C => 2
  | .D => 3

/-- Source `ZONE_LABELS`. -/
def zoneLabel : Zone → String
  | .A => "Normal"
  | .B => "Satisfactory"
  | .C => "Alert"
  | .D => "Unacceptable"

/-- One row of `ISO_THRESHOLDS` (upper velocity-RMS bound of each zone;
`D` uses the JSON-safe sentinel 99999 instead of infinity, as the source
comments). -/
structure IsoThresholds where
  A : ℚ
  B : ℚ
  C : ℚ
  D : ℚ
  deriving DecidableEq, Repr

/-- The `ISO_THRESHOLDS` dict: `None` for a key that is not present. -/
def ISO_THRESHOLDS : String → Option IsoThresholds
  | "I" => some ⟨71 / 100, 9 / 5, 9 / 2, 99999⟩
  | "II" => some ⟨28 / 25, 14 / 5, 71 / 10, 99999⟩
  | "III" => some ⟨9 / 5, 9 / 2, 56 / 5, 99999⟩
  | "IV" => some ⟨14 / 5, 71 / 10, 18, 99999⟩
  | _ => none

/-- Python `round(x, 3)` on exact rationals: round half to even. -/
def pythonRound3 (q : ℚ) : ℚ :=
  let s := q * 1000
  let f : ℤ := ⌊s⌋
  let r := s - f
  (if r < 1 / 2 then (f : ℚ)
   else if 1 / 2 < r then (f + 1 : ℤ)
   else if f % 2 = 0 then (f : ℚ) else (f + 1 : ℤ)) / 1000

/-- The dict returned by `get_iso_severity_zone` (the `color` string is
omitted). -/
structure SeverityOut where
  zone : Zone
  label : String
  velocityRMS : ℚ
  machineClass : String
  thresholds : IsoThresholds
  deriving DecidableEq, Repr

/-- The `if/elif` zone chain of `get_iso_severity_zone`:
`rms ≤ A → A`, `rms ≤ B → B`, `rms ≤ C → C`, else `D`. -/
def zoneFromThresholds (t : IsoThresholds) (velocity_rms : ℚ) : Zone :=
  if velocity_rms ≤ t.A then Zone.A
  else if velocity_rms ≤ t.B then Zone.B
  else if velocity_rms ≤ t.C then Zone.C
  else Zone.D

/-- Source `fft_analysis.get_iso_severity_zone`: unrecognized machine classes fall
back to class II, then the zone is selected by the `if/elif` chain. -/
def get_iso_severity_zone (velocity_rms : ℚ) (machine_class : String) : SeverityOut :=
  let mc := if (ISO_THRESHOLDS machine_class).isSome then machine_class else "II"
  let t := (ISO_THRESHOLDS mc).getD ⟨28 / 25, 14 / 5, 71 / 10, 99999⟩
  let zone := zoneFromThresholds t velocity_rms
  ⟨zone, zoneLabel zone, pythonRound3 velocity_rms, mc, t⟩

/-- Upper threshold of a zone in a thresholds row. -/
def zoneThreshold (t : IsoThresholds) : Zone → ℚ
  | .A => t.A
  | .B => t.B
  | .C => t.C
  | .D => t.D

/-- Spec-side reading of §4.4: the zone is the LOWEST zone (in the order
A, B, C, D) whose upper threshold is ≥ the RMS value; zone D is unbounded
above in the table, so the search defaults to D. -/
def lowestZoneWithThreshold (t : IsoThresholds) (rms : ℚ) : Zone :=
  (([Zone.A, Zone.B, Zone.C, Zone.D]).find? (fun z => decide (rms ≤ zoneThreshold t z))).getD Zone.D

/-! ### `fft_analysis.py`: overall velocity RMS inside
`perform_complete_analysis` (lines 773–786) -/

/-- Amplitude of the detected 1× peak, `0` when no 1× peak exists
(`velocity_rms_1x = peak_1x['amplitude'] if peak_1x else 0`). -/
def velocityRms1x (s : List (ℚ × ℚ)) (rf : ℚ) : ℚ :=
  ((find_peak_in_band s rf (1 / 20)).map Peak.amplitude).getD 0

/-- Source `freqs[-1] if len(freqs) > 0 else 1000.0` as used for `high_cutoff`. -/
def lastFreqD1000 (s : List (ℚ × ℚ)) : ℚ :=
  ((s.map Prod.fst).getLast?).getD 1000

/-- Amplitudes of the bins selected by
`freq_mask = (freqs >= 10.0) & (freqs <= min(1000.0, freqs[-1]))`. -/
def bandAmplitudes (s : List (ℚ × ℚ)) : List ℚ :=
  (s.filter (fun p => decide (10 ≤ p.1 ∧ p.1 ≤ min 1000 (lastFreqD1000 s)))).map Prod.snd

/-- Source `relevant_amps = amplitudes[freq_mask] if np.any(freq_mask) else amplitudes`. -/
def relevantAmplitudes (s : List (ℚ × ℚ)) : List ℚ :=
  if bandAmplitudes s = [] then s.map Prod.snd else bandAmplitudes s

/-- Source `np.sum(amps ** 2)`. -/
def sumSquares (l : List ℚ) : ℚ :=
  (l.map (fun x => x * x)).sum

/-- Band of claim C1's words (spec §4.4): the amplitudes of the bins whose
frequency lies in 10 Hz to 1000 Hz — with no fallback and no
`min(1000, freqs[-1])` upper end. -/
def claimBandAmplitudes (s : List (ℚ × ℚ)) : List ℚ :=
  (s.filter (fun p => decide (10 ≤ p.1 ∧ p.1 ≤ 1000))).map Prod.snd

/-- The amplitude list of claim C1 as amended by the source: when no bin
frequency lies in the 10–1000 Hz band, the sum of squares ranges over ALL
spectrum amplitudes instead. -/
def amendedRelevantAmplitudes (s : List (ℚ × ℚ)) : List ℚ :=
  if claimBandAmplitudes s = [] then s.map Prod.snd else claimBandAmplitudes s

/-- The square root leaves ℚ; the guarded source expression
`np.sqrt(...) if len(relevant_amps) > 0 else 0` coincides with the unguarded
square root, since an empty list has sum of squares 0. -/
theorem velocityRmsOverall_eq_sqrt (s : List (ℚ × ℚ)) :
    (if relevantAmplitudes s = [] then (0 : ℝ)
     else Real.sqrt ((sumSquares (relevantAmplitudes s) : ℚ) : ℝ))
      = Real.sqrt ((sumSquares (relevantAmplitudes s) : ℚ) : ℝ) := by
  by_cases h : relevantAmplitudes s = []
  · simp [h, sumSquares]
  · simp [h]

/-! ### `fft_analysis.py`: `perform_complete_analysis`

The FFT itself (Butterworth filtering, integration, Hann windowing,
`np.fft.fft`) is transcendental and beyond exact embedding; the model takes
the per-bin amplitude magnitudes the averaged block FFT produced as an
arbitrary list `amps`.  What IS embedded is everything the claims depend on:
the validation order, the frequency axis `np.linspace(0, SR/2, M)` with
`M = blockSize // 2` bins, the strict `< fmax` truncation with
`fmax = min(12 × running_freq, SR / 2)`, and the downstream peak, harmonic,
fixed-frequency and RMS stages. -/

/-- Error taxonomy of spec §7.  The source raises `ValueError` for all
three validation failures; the message strings (kept verbatim) distinguish
the invalid-parameter cases from the insufficient-data case. -/
inductive AnalysisError where
  | invalidParameter (msg : String)
  | insufficientData (msg : String)
  deriving DecidableEq, Repr

/-- The fields of the `perform_complete_analysis` result dict the claims
refer to (`fftSpectrum` display decimation, timeseries and metadata are
omitted). -/
structure CompleteAnalysis where
  runningFrequency : ℚ
  fmax : ℚ
  spectrum : List (ℚ × ℚ)
  peakAt1x : Option Peak
  harmonics : List HarmonicEntry
  fixedFrequencyPeaks : List FixedPeak
  deriving Repr

/-- The spectrum `velocity_convert` hands back for analysis: frequency axis
`np.linspace(0.0, SR / 2, num = M)` zipped with the averaged block
amplitudes, truncated to the bins with `frequency < fmax`
(`filtered_indices = velocity_FFT_X_Data < fmax`). -/
def velocitySpectrum (SR : ℚ) (amps : List ℚ) (fmax : ℚ) : List (ℚ × ℚ) :=
  ((linspace (SR / 2) amps.length).zip amps).filter (fun p => decide (p.1 < fmax))

/-- Source `fft_analysis.perform_complete_analysis` up to the severity/diagnosis
hand-off: validation happens first (in source order: RPM, then data length,
then sample rate), so on any invalid input the function raises before any
FFT work; otherwise the truncated spectrum is built and searched.  `amps` is
the averaged block-FFT magnitude array (length `blockSize // 2`, see
`FFT_simple`). -/
def perform_complete_analysis (raw_data : List ℚ) (sample_rate : ℚ) (rpm : Option ℚ)
    (amps : List ℚ) : Except AnalysisError CompleteAnalysis :=
  match rpm with
  | none => .error (.invalidParameter "Valid RPM is required for analysis")
  | some r =>
    if r ≤ 0 then .error (.invalidParameter "Valid RPM is required for analysis")
    else if raw_data.length < 100 then
      .error (.insufficientData "Insufficient vibration data for analysis")
    else if sample_rate ≤ 0 then .error (.invalidParameter "Valid sample rate is required")
    else
      let running_freq := r / 60
      let fmax := min (running_freq * 12) (sample_rate / 2)
      let s := velocitySpectrum sample_rate amps fmax
      .ok
        { runningFrequency := running_freq
          fmax := fmax
          spectrum := s
          peakAt1x := find_peak_in_band s running_freq (1 / 20)
          harmonics := detect_harmonics s running_freq
          fixedFrequencyPeaks := detect_fixed_frequencies s }

/-! ### `diagnosis_engine.py`: Excel-based rule scoring -/

/-- Confidence levels. -/
inductive Confidence where
  | low
  | medium
  | high
  deriving DecidableEq, Repr

/-- Rank used for "highest confidence" comparisons (Low < Medium < High). -/
def confIdx : Confidence → ℕ
  | .low => 0
  | .medium => 1
  | .high => 2

/-- A harmonic dict as consumed by the engine: `h.get('frequency',
h.get('detectedFrequency', 0))` and `h.get('amplitude', 0)` make every field
optional with default 0. -/
structure EngineHarm where
  frequency : Option ℚ
  detectedFrequency : Option ℚ
  amplitude : Option ℚ
  deriving DecidableEq, Repr

/-- Source `h.get('frequency', h.get('detectedFrequency', 0))`. -/
def engineFreq (h : EngineHarm) : ℚ :=
  h.frequency.getD (h.detectedFrequency.getD 0)

/-- Source `h.get('amplitude', 0)`. -/
def engineAmp (h : EngineHarm) : ℚ :=
  h.amplitude.getD 0

/-- Source `diagnosis_engine.find_peak_at_multiple` with the module-wide
`FREQUENCY_TOLERANCE = 0.02`: the FIRST harmonic whose frequency lies within
±2 % of `multiplier × running_freq`. -/
def find_peak_at_multiple (harmonics : List EngineHarm) (multiplier rf : ℚ) : Option EngineHarm :=
  let target := multiplier * rf
  harmonics.find? (fun h =>
    decide (target * (1 - 1 / 50) ≤ engineFreq h ∧ engineFreq h ≤ target * (1 + 1 / 50)))

/-- Source `diagnosis_engine.get_amplitude_at_multiple`. -/
def get_amplitude_at_multiple (harmonics : List EngineHarm) (multiplier rf : ℚ) : ℚ :=
  ((find_peak_at_multiple harmonics multiplier rf).map engineAmp).getD 0

/-- Source `diagnosis_engine.get_max_amplitude` (0 on an empty list). -/
def get_max_amplitude (harmonics : List EngineHarm) : ℚ :=
  match harmonics with
  | [] => 0
  | h :: t => t.foldl (fun m x => max m (engineAmp x)) (engineAmp h)

/-- Source `significant_threshold = max_amp * 0.1 if max_amp > 0 else 0.01`. -/
def significantThreshold (harmonics : List EngineHarm) : ℚ :=
  let m := get_max_amplitude harmonics
  if 0 < m then m * (1 / 10) else 1 / 100

/-- Source `harmonic_count = len([h for h in harmonics if amplitude > threshold])`. -/
def engineHarmonicCount (harmonics : List EngineHarm) : ℕ :=
  (harmonics.filter (fun h => decide (significantThreshold harmonics < engineAmp h))).length

/-- Unbalance: +3 if `amp_1x >= max_amp * 0.7`; +2 more if `amp_1x > 0` and
`amp_2x < amp_1x * 0.35` and `amp_3x < amp_1x * 0.25`. -/
def unbalanceScore (harmonics : List EngineHarm) (rf : ℚ) : ℕ :=
  let amp1 := get_amplitude_at_multiple harmonics 1 rf
  let amp2 := get_amplitude_at_multiple harmonics 2 rf
  let amp3 := get_amplitude_at_multiple harmonics 3 rf
  let maxAmp := get_max_amplitude harmonics
  (if maxAmp * (7 / 10) ≤ amp1 then 3 else 0)
    + (if 0 < amp1 ∧ amp2 < amp1 * (7 / 20) ∧ amp3 < amp1 * (1 / 4) then 2 else 0)

/-- Misalignment: +3 if `amp_1x > 0 and amp_2x > amp_1x * 0.30`; +2 if
`amp_1x > 0 and amp_3x > amp_1x * 0.15`.  Note both bonuses are guarded by
`amp_1x > 0` in the source. -/
def misalignmentScore (harmonics : List EngineHarm) (rf : ℚ) : ℕ :=
  let amp1 := get_amplitude_at_multiple harmonics 1 rf
  let amp2 := get_amplitude_at_multiple harmonics 2 rf
  let amp3 := get_amplitude_at_multiple harmonics 3 rf
  (if 0 < amp1 ∧ amp1 * (3 / 10) < amp2 then 3 else 0)
    + (if 0 < amp1 ∧ amp1 * (3 / 20) < amp3 then 2 else 0)

/-- Coupling Defects: +3 if `amp_3x > amp_1x * 0.50` (with `amp_1x > 0`);
+3 if `amp_4x > amp_1x * 0.40` (with `amp_1x > 0`); +2 if
`harmonic_count >= 4`. -/
def couplingScore (harmonics : List EngineHarm) (rf : ℚ) : ℕ :=
  let amp1 := get_amplitude_at_multiple harmonics 1 rf
  let amp3 := get_amplitude_at_multiple harmonics 3 rf
  let amp4 := get_amplitude_at_multiple harmonics 4 rf
  (if 0 < amp1 ∧ amp1 * (1 / 2) < amp3 then 3 else 0)
    + (if 0 < amp1 ∧ amp1 * (2 / 5) < amp4 then 3 else 0)
    + (if 4 ≤ engineHarmonicCount harmonics then 2 else 0)

/-- Bearing Looseness: +4 if `amp_05x > max_amp * 0.1`; +2 if
`harmonic_count >= 4`. -/
def loosenessScore (harmonics : List EngineHarm) (rf : ℚ) : ℕ :=
  let amp05 := get_amplitude_at_multiple harmonics (1 / 2) rf
  (if get_max_amplitude harmonics * (1 / 10) < amp05 then 4 else 0)
    + (if 4 ≤ engineHarmonicCount harmonics then 2 else 0)

/-- Bearing Fitment: +4 if `amp_2x > amp_1x * 0.90`; +2 if
`amp_2x >= max_amp * 0.9`. -/
def fitmentScore (harmonics : List EngineHarm) (rf : ℚ) : ℕ :=
  let amp1 := get_amplitude_at_multiple harmonics 1 rf
  let amp2 := get_amplitude_at_multiple harmonics 2 rf
  (if amp1 * (9 / 10) < amp2 then 4 else 0)
    + (if get_max_amplitude harmonics * (9 / 10) ≤ amp2 then 2 else 0)

/-- High Vibration: +3 if `severity_zone in ['C', 'D'] or (velocity_rms and
velocity_rms > 2.8)` — Python truthiness makes the second disjunct
`velocity_rms is a number r with r ≠ 0 and r > 2.8`, i.e. simply `r > 2.8`. -/
def highVibrationScore (severity_zone : Option Zone) (velocity_rms : Option ℚ) : ℕ :=
  match velocity_rms with
  | some r =>
    if severity_zone = some Zone.C ∨ severity_zone = some Zone.D ∨ 14 / 5 < r then 3 else 0
  | none => if severity_zone = some Zone.C ∨ severity_zone = some Zone.D then 3 else 0

/-- The insertion-ordered `fault_scores` dict. -/
def faultScoreList (harmonics : List EngineHarm) (rf : ℚ) (severity_zone : Option Zone)
    (velocity_rms : Option ℚ) : List (String × ℕ) :=
  [("Unbalance", unbalanceScore harmonics rf),
   ("Misalignment", misalignmentScore harmonics rf),
   ("Coupling Defects", couplingScore harmonics rf),
   ("Bearing Looseness", loosenessScore harmonics rf),
   ("Bearing Fitment", fitmentScore harmonics rf),
   ("High Vibration", highVibrationScore severity_zone velocity_rms)]

/-- The fields of the diagnosis result dict the claims refer to (evidence
sentences, recommendation and `allFaults` are omitted). -/
structure DiagResult where
  fault : String
  confidence : Confidence
  deriving DecidableEq, Repr

/-- The `detected_faults` dict: faults whose score reaches the detection
threshold 4, in insertion order. -/
def detectedFaults (harmonics : List EngineHarm) (rf : ℚ) (severity_zone : Option Zone)
    (velocity_rms : Option ℚ) : List (String × ℕ) :=
  (faultScoreList harmonics rf severity_zone velocity_rms).filter (fun p => decide (4 ≤ p.2))

/-- Source `detected_faults` after the High Vibration fallback: when nothing scored
≥ 4 but High Vibration scored ≥ 3, High Vibration is inserted. -/
def detectedWithFallback (harmonics : List EngineHarm) (rf : ℚ) (severity_zone : Option Zone)
    (velocity_rms : Option ℚ) : List (String × ℕ) :=
  let det := detectedFaults harmonics rf severity_zone velocity_rms
  let hv := highVibrationScore severity_zone velocity_rms
  if det = [] ∧ 3 ≤ hv then [("High Vibration", hv)] else det

/-- Source `running_freq = rpm / 60` when the passed running frequency is missing,
falsy (`0.0`) or non-positive. -/
def effectiveRunningFreq (r : ℚ) (running_freq : Option ℚ) : ℚ :=
  match running_freq with
  | none => r / 60
  | some q => if q ≤ 0 then r / 60 else q

/-- Source `not rpm or rpm <= 0` (Python truthiness: `None` and `0.0` are falsy). -/
def rpmInvalid (rpm : Option ℚ) : Prop :=
  match rpm with
  | none => True
  | some r => r ≤ 0

instance (rpm : Option ℚ) : Decidable (rpmInvalid rpm) := by
  unfold rpmInvalid
  cases rpm <;> infer_instance

/-- Source `diagnosis_engine.perform_enhanced_diagnosis`, a total function (no
exception path): the pre-check returns the "Diagnosis unavailable" value;
`running_freq` falls back to `rpm / 60` when missing or ≤ 0; faults with
score ≥ 4 are "detected"; an empty detected set falls back to High
Vibration when its score reaches 3; otherwise zone C/D forces a Medium
"High Vibration" verdict and anything else is "Normal"/High.  The winner is
the first fault of maximal score in dict insertion order (Python
`max(dict, key=dict.get)`), its confidence High for score ≥ 6, Medium for
≥ 4, else Low, promoted Medium → High when the zone is C or D. -/
def perform_enhanced_diagnosis (rpm : Option ℚ) (harmonics : List EngineHarm)
    (running_freq : Option ℚ) (severity_zone : Option Zone) (velocity_rms : Option ℚ) :
    DiagResult :=
  if rpmInvalid rpm ∨ harmonics = [] then ⟨"Diagnosis unavailable", .low⟩
  else
    let rf := effectiveRunningFreq (rpm.getD 0) running_freq
    match argmaxFirst (fun p => p.2)
        (detectedWithFallback harmonics rf severity_zone velocity_rms) with
    | none =>
      if severity_zone = some Zone.C ∨ severity_zone = some Zone.D then
        ⟨"High Vibration", .medium⟩
      else ⟨"Normal", .high⟩
    | some best =>
      let conf : Confidence := if 6 ≤ best.2 then .high else if 4 ≤ best.2 then .medium else .low
      ⟨best.1,
        if (severity_zone = some Zone.C ∨ severity_zone = some Zone.D) ∧ conf = .medium then
          .high
        else conf⟩

/-! ### `machines.py`: per-bearing aggregation over the H/V/A axes
(`analyze_fft`, lines 1025–1056) -/

/-- The slice of a per-axis severity dict the aggregation reads. -/
structure SevObj where
  zone : Zone
  velocityRMS : ℚ
  deriving DecidableEq, Repr

/-- The slice of a per-axis diagnosis dict the aggregation reads;
`harmonicCount` is optional because the code uses
`diag.get('harmonicCount', 0)`. -/
structure DiagObj where
  fault : String
  confidence : Confidence
  evidence : List String
  harmonicCount : Option ℕ
  deriving DecidableEq, Repr

/-- One entry of `axis_results` (in dict insertion order H, V, A). -/
structure AxisResult where
  available : Bool
  severity : Option SevObj
  diagnosis : Option DiagObj
  deriving DecidableEq, Repr

/-- The severity dicts the loop `if result.get('available') and
result.get('severity')` actually visits, in axis order.  (A present dict is
always truthy: the structure is nonempty.) -/
def availSeverities (rs : List AxisResult) : List SevObj :=
  rs.filterMap (fun r => if r.available then r.severity else none)

/-- The diagnosis dicts visited by `if result.get('available') and
result.get('diagnosis')`, in axis order. -/
def availDiagnoses (rs : List AxisResult) : List DiagObj :=
  rs.filterMap (fun r => if r.available then r.diagnosis else none)

/-- The severity-selection loop: start at `None`, take the first candidate,
then replace only on a STRICTLY later-ordered zone
(`severity_order.index(zone) > severity_order.index(current)`). -/
def pickWorstSeverity : Option SevObj → List SevObj → Option SevObj
  | acc, [] => acc
  | none, s :: t => pickWorstSeverity (some s) t
  | some a, s :: t =>
    pickWorstSeverity (if zoneIdx a.zone < zoneIdx s.zone then some s else some a) t

/-- Source `overall_severity` of `analyze_fft`. -/
def overallSeverity (rs : List AxisResult) : Option SevObj :=
  pickWorstSeverity none (availSeverities rs)

/-- The diagnosis-selection loop: take the first candidate, then replace
only when a later diagnosis has High confidence and the current selection
does not (`diag.get('confidence') == 'High' and
overall_diagnosis.get('confidence') != 'High'`). -/
def pickDiagnosis : Option DiagObj → List DiagObj → Option DiagObj
  | acc, [] => acc
  | none, d :: t => pickDiagnosis (some d) t
  | some a, d :: t =>
    pickDiagnosis
      (if d.confidence = Confidence.high ∧ a.confidence ≠ Confidence.high then some d else some a)
      t

/-- Source `all_evidence`: the concatenation of the evidence lists of EVERY
available axis's diagnosis (not just the selected one), in axis order. -/
def allEvidence (rs : List AxisResult) : List String :=
  (availDiagnoses rs).foldr (fun d acc => d.evidence ++ acc) []

/-- Source `max_harmonic_count = max(..., diag.get('harmonicCount', 0))` starting
from 0. -/
def maxHarmonicCount (rs : List AxisResult) : ℕ :=
  (availDiagnoses rs).foldl (fun m d => max m (d.harmonicCount.getD 0)) 0

/-- Deduplication keeping first occurrences.  The source computes
`list(set(all_evidence))`, whose ORDER is unspecified in Python; the model
fixes first-occurrence order, and the theorems below state only
order-insensitive consequences (no duplicates, membership, length). -/
def dedupFirst (l : List String) : List String :=
  l.foldl (fun acc x => if x ∈ acc then acc else acc ++ [x]) []

/-- Source `overall_diagnosis` of `analyze_fft`: the selected diagnosis with its
evidence replaced by `list(set(all_evidence))[:5]` and its harmonic count
replaced by the maximum across available axes. -/
def overallDiagnosis (rs : List AxisResult) : Option DiagObj :=
  (pickDiagnosis none (availDiagnoses rs)).map (fun d =>
    { d with
      evidence := (dedupFirst (allEvidence rs)).take 5
      harmonicCount := some (maxHarmonicCount rs) })

/-- Written from the words of claim C4 (spec §4.6): the diagnosis object
with the highest confidence among available axes, ties favouring the first
axis encountered. -/
def claimDiagnosisPick (rs : List AxisResult) : Option DiagObj :=
  argmaxFirst (fun d => confIdx d.confidence) (availDiagnoses rs)

/-! ## Claim theorems -/

/-- The property claim C6 asserts of `find_peak_in_band` at a spectrum `s`
and center frequency `center` (tolerance 0.05): a `none` result means no bin
frequency lies in `[center × 0.95, center × 1.05]`, and a `some` result is a
spectrum point, lies in the band, and has maximal amplitude among the
in-band bins — together: `none` exactly when the band is empty, else the
in-band maximum. -/
def FindPeakSpecProp (s : List (ℚ × ℚ)) (center : ℚ) : Prop :=
  match find_peak_in_band s center (1 / 20) with
  | none => ∀ p ∈ s, ¬(center * (1 - 1 / 20) ≤ p.1 ∧ p.1 ≤ center * (1 + 1 / 20))
  | some pk =>
    (pk.frequency, pk.amplitude) ∈ s
      ∧ center * (1 - 1 / 20) ≤ pk.frequency ∧ pk.frequency ≤ center * (1 + 1 / 20)
      ∧ ∀ p ∈ s, center * (1 - 1 / 20) ≤ p.1 → p.1 ≤ center * (1 + 1 / 20) →
          p.2 ≤ pk.amplitude

/-- C6: for every spectrum and center frequency `c > 0`,
`find_peak_in_band` with tolerance 0.05 returns a spectrum point of maximum
amplitude among the bins whose frequency lies in
`[c × (1 − 0.05), c × (1 + 0.05)]`, and returns none exactly when no bin
frequency lies in that interval. -/
theorem find_peak_in_band_spec (s : List (ℚ × ℚ)) (center : ℚ) (hc : 0 < center) :
    FindPeakSpecProp s center := by
  unfold FindPeakSpecProp
  have hdef : find_peak_in_band s center (1 / 20)
      = (argmaxFirst (fun p => p.2)
          (s.filter (fun p =>
            decide (center * (1 - 1 / 20) ≤ p.1 ∧ p.1 ≤ center * (1 + 1 / 20))))).map
          (fun p => ⟨p.1, p.2, center, 1 / 20⟩) := by
    unfold find_peak_in_band
    rw [if_neg (not_le.mpr hc)]
  rw [hdef]
  cases h : argmaxFirst (fun p => p.2)
      (s.filter (fun p =>
        decide (center * (1 - 1 / 20) ≤ p.1 ∧ p.1 ≤ center * (1 + 1 / 20)))) with
  | none =>
    have hnil := (argmaxFirst_eq_none_iff _ _).mp h
    have := List.filter_eq_nil_iff.mp hnil
    simp only [Option.map_none']
    intro p hp hcontra
    exact this p hp (by simpa using hcontra)
  | some q =>
    have hmem := argmaxFirst_mem _ h
    have hle := argmaxFirst_le _ h
    have hq := List.mem_filter.mp hmem
    have hband : center * (1 - 1 / 20) ≤ q.1 ∧ q.1 ≤ center * (1 + 1 / 20) := by
      simpa using hq.2
    simp only [Option.map_some']
    refine ⟨?_, hband.1, hband.2, ?_⟩
    · simpa using hq.1
    · intro p hp h1 h2
      exact hle p (List.mem_filter.mpr ⟨hp, by simp only [decide_eq_true_eq]; exact ⟨h1, h2⟩⟩)

/-- Witness for C6 at a concrete three-bin spectrum and `c = 10` (the
maximum-amplitude in-band bin there is `(10, 7)`). -/
theorem find_peak_in_band_spec_witness :
    FindPeakSpecProp [((19 : ℚ) / 2, 2), (10, 7), (101 / 10, 3)] 10 :=
  find_peak_in_band_spec [((19 : ℚ) / 2, 2), (10, 7), (101 / 10, 3)] 10 (by norm_num)

/-- The zone chain is monotone: a larger RMS can only move later in the
order A < B < C < D (no ordering assumption on the thresholds is needed). -/
theorem zoneFromThresholds_mono (t : IsoThresholds) (r1 r2 : ℚ) (h : r1 ≤ r2) :
    zoneIdx (zoneFromThresholds t r1) ≤ zoneIdx (zoneFromThresholds t r2) := by
  unfold zoneFromThresholds
  split_ifs <;> simp [zoneIdx] <;> linarith

/-- The zone chain returns exactly the lowest zone (in the order A, B, C, D)
whose upper threshold is ≥ the RMS value. -/
theorem zoneFromThresholds_eq_lowest (t : IsoThresholds) (r : ℚ) :
    zoneFromThresholds t r = lowestZoneWithThreshold t r := by
  unfold zoneFromThresholds lowestZoneWithThreshold zoneThreshold
  by_cases h1 : r ≤ t.A <;> by_cases h2 : r ≤ t.B <;> by_cases h3 : r ≤ t.C <;>
    by_cases h4 : r ≤ t.D <;> simp [List.find?, h1, h2, h3, h4]

/-- The property claim C2 asserts of `get_iso_severity_zone`: monotone zone
assignment in the order A < B < C < D, the zone is the lowest zone whose
§4.4 upper threshold is ≥ the RMS, and the class II boundary pair
(1.12 → A, 1.1201 → B). -/
def IsoSeveritySpecProp (mc : String) (r1 r2 : ℚ) : Prop :=
  zoneIdx (get_iso_severity_zone r1 mc).zone ≤ zoneIdx (get_iso_severity_zone r2 mc).zone
    ∧ (get_iso_severity_zone r1 mc).zone
        = lowestZoneWithThreshold ((ISO_THRESHOLDS mc).getD ⟨28 / 25, 14 / 5, 71 / 10, 99999⟩) r1
    ∧ (get_iso_severity_zone ((28 : ℚ) / 25) "II").zone = Zone.A
    ∧ (get_iso_severity_zone ((11201 : ℚ) / 10000) "II").zone = Zone.B

/-- C2: for every machine class in {I, II, III, IV} and RMS values
`r1 ≤ r2`, the zone of `r1` precedes or equals the zone of `r2` in the
order A < B < C < D; the zone is the lowest zone whose §4.4 upper threshold
is ≥ the RMS (zone D, unbounded in the table, is the default of the
search); and for class II an RMS of exactly 1.12 yields zone A while
1.1201 yields zone B. -/
theorem get_iso_severity_zone_spec (mc : String) (hmc : mc ∈ ["I", "II", "III", "IV"])
    (r1 r2 : ℚ) (h12 : r1 ≤ r2) : IsoSeveritySpecProp mc r1 r2 := by
  have hzone : ∀ r : ℚ, (get_iso_severity_zone r mc).zone
      = zoneFromThresholds ((ISO_THRESHOLDS mc).getD ⟨28 / 25, 14 / 5, 71 / 10, 99999⟩) r := by
    intro r
    fin_cases hmc <;> rfl
  refine ⟨?_, ?_, ?_, ?_⟩
  · rw [hzone r1, hzone r2]
    exact zoneFromThresholds_mono _ r1 r2 h12
  · rw [hzone r1]
    exact zoneFromThresholds_eq_lowest _ r1
  · norm_num [get_iso_severity_zone, ISO_THRESHOLDS, zoneFromThresholds]
  · norm_num [get_iso_severity_zone, ISO_THRESHOLDS, zoneFromThresholds]

/-- Witness for C2: class II with `r1 = 1 ≤ 2 = r2`. -/
theorem get_iso_severity_zone_spec_witness : IsoSeveritySpecProp "II" 1 2 :=
  get_iso_severity_zone_spec "II" (by decide) 1 2 (by norm_num)

/-- C9: whenever RPM is missing or ≤ 0 (Python falsiness of `rpm` plus the
`rpm <= 0` test) or the harmonics list is empty, `perform_enhanced_diagnosis`
returns the normal result value with fault `"Diagnosis unavailable"` and Low
confidence.  The model is a total Lean function, so this return value — not
an exception — is the outcome on every such input. -/
theorem perform_enhanced_diagnosis_unavailable (rpm : Option ℚ) (harmonics : List EngineHarm)
    (running_freq : Option ℚ) (severity_zone : Option Zone) (velocity_rms : Option ℚ)
    (h : rpmInvalid rpm ∨ harmonics = []) :
    perform_enhanced_diagnosis rpm harmonics running_freq severity_zone velocity_rms
      = ⟨"Diagnosis unavailable", Confidence.low⟩ := by
  unfold perform_enhanced_diagnosis
  rw [if_pos h]

/-- Witness for C9: `rpm = 0` (falsy in Python) with a nonempty harmonics
list still yields the "Diagnosis unavailable" value. -/
theorem perform_enhanced_diagnosis_unavailable_witness :
    perform_enhanced_diagnosis (some 0) [⟨some 10, none, some 1⟩] none none none
      = ⟨"Diagnosis unavailable", Confidence.low⟩ :=
  perform_enhanced_diagnosis_unavailable (some 0) [⟨some 10, none, some 1⟩] none none none
    (Or.inl (by simp [rpmInvalid]))

/-- Discriminates the invalid-parameter error case of the analysis result. -/
def isInvalidParameterError (e : Except AnalysisError CompleteAnalysis) : Bool :=
  match e with
  | .error (.invalidParameter _) => true
  | _ => false

/-- Counterexample to C8 as stated: on `rpm = 1`, `sample_rate = 0` and 50
samples — an input with sample rate ≤ 0, for which the claim requires an
`InvalidParameterError` — the source's length check fires first and the
function raises the insufficient-data error instead. -/
theorem perform_complete_analysis_order_counterexample :
    perform_complete_analysis (List.replicate 50 0) 0 (some 1) []
        = .error (.insufficientData "Insufficient vibration data for analysis")
      ∧ isInvalidParameterError (perform_complete_analysis (List.replicate 50 0) 0 (some 1) [])
        = false := by
  constructor <;> norm_num [perform_complete_analysis, isInvalidParameterError]

/-- The validation behaviour of `perform_complete_analysis` as amended by
the source's check order: RPM first, then the 100-sample floor, then the
sample rate.  An `.error` result is returned before the spectrum stage, so
no spectrum is produced on any failing input (last conjunct). -/
def AnalysisValidationProp (raw : List ℚ) (SR : ℚ) (rpm : Option ℚ) (amps : List ℚ) : Prop :=
  (rpmInvalid rpm → perform_complete_analysis raw SR rpm amps
      = .error (.invalidParameter "Valid RPM is required for analysis"))
    ∧ (¬rpmInvalid rpm → raw.length < 100 → perform_complete_analysis raw SR rpm amps
        = .error (.insufficientData "Insufficient vibration data for analysis"))
    ∧ (¬rpmInvalid rpm → 100 ≤ raw.length → SR ≤ 0 → perform_complete_analysis raw SR rpm amps
        = .error (.invalidParameter "Valid sample rate is required"))
    ∧ ((rpmInvalid rpm ∨ raw.length < 100 ∨ SR ≤ 0) →
        (perform_complete_analysis raw SR rpm amps).isOk = false)

/-- C8 (amended): `perform_complete_analysis` raises `InvalidParameterError`
for missing/non-positive RPM, `InsufficientDataError` for fewer than 100
samples, and `InvalidParameterError` for sample rate ≤ 0, with the checks
applied in exactly that order (so insufficient data takes precedence over a
bad sample rate); every failing input yields an error and no spectrum. -/
theorem perform_complete_analysis_validation (raw : List ℚ) (SR : ℚ) (rpm : Option ℚ)
    (amps : List ℚ) : AnalysisValidationProp raw SR rpm amps := by
  refine ⟨?_, ?_, ?_, ?_⟩
  · intro h
    cases rpm with
    | none => rfl
    | some r =>
      simp only [rpmInvalid] at h
      simp [perform_complete_analysis, h]
  · intro h hlen
    cases rpm with
    | none => exact absurd trivial h
    | some r =>
      simp only [rpmInvalid] at h
      simp [perform_complete_analysis, h, hlen]
  · intro h hlen hsr
    cases rpm with
    | none => exact absurd trivial h
    | some r =>
      simp only [rpmInvalid] at h
      simp [perform_complete_analysis, h, hsr, Nat.not_lt.mpr hlen]
  · intro h
    cases rpm with
    | none => rfl
    | some r =>
      by_cases h1 : r ≤ 0
      · simp [perform_complete_analysis, h1, Except.isOk, Except.toBool]
      · rcases h with h | h | h
        · simp [rpmInvalid] at h
          exact absurd h h1
        · simp [perform_complete_analysis, h1, h, Except.isOk, Except.toBool]
        · by_cases h2 : raw.length < 100
          · simp [perform_complete_analysis, h1, h2, Except.isOk, Except.toBool]
          · simp [perform_complete_analysis, h1, h2, h, Except.isOk, Except.toBool]

/-- Witness for C8: a missing RPM raises the invalid-parameter error (first
conjunct of the validation property at a concrete input). -/
theorem perform_complete_analysis_validation_witness :
    perform_complete_analysis [] 0 none []
      = .error (.invalidParameter "Valid RPM is required for analysis") :=
  (perform_complete_analysis_validation [] 0 none []).1 trivial

/-- Counterexample to C7 as stated: with a single harmonic at 2× (running
frequency 10 Hz, amplitude 1) and no 1× peak, `amp(1x) = 0` and
`amp(2x) = 1 > 0.30 × amp(1x) = 0`, so the claim requires the +3 bonus —
but the source's `amp_1x > 0` guard leaves the Misalignment score at 0. -/
theorem misalignment_zero_guard_counterexample :
    get_amplitude_at_multiple [⟨some 20, none, some 1⟩] 1 10 = 0
      ∧ get_amplitude_at_multiple [⟨some 20, none, some 1⟩] 2 10 = 1
      ∧ (0 : ℚ) * (3 / 10) < 1
      ∧ misalignmentScore [⟨some 20, none, some 1⟩] 10 = 0 := by
  refine ⟨?_, ?_, by norm_num, ?_⟩ <;>
    norm_num [misalignmentScore, get_amplitude_at_multiple, find_peak_at_multiple,
      engineFreq, engineAmp, List.find?]

/-- The property claim C7 asserts of the Misalignment score, as amended by
the source's `amp_1x > 0` guard: the score gains +3 exactly when
`amp(1x) > 0` and `amp(2x) > 0.30 × amp(1x)`, gains +2 exactly when
`amp(1x) > 0` and `amp(3x) > 0.15 × amp(1x)`, and takes no other
contributions (so its only values are 0, 2, 3, 5). -/
def MisalignmentScoreProp (harmonics : List EngineHarm) (rf : ℚ) : Prop :=
  let a1 := get_amplitude_at_multiple harmonics 1 rf
  let a2 := get_amplitude_at_multiple harmonics 2 rf
  let a3 := get_amplitude_at_multiple harmonics 3 rf
  let sc := misalignmentScore harmonics rf
  ((sc = 3 ∨ sc = 5) ↔ (0 < a1 ∧ a1 * (3 / 10) < a2))
    ∧ ((sc = 2 ∨ sc = 5) ↔ (0 < a1 ∧ a1 * (3 / 20) < a3))
    ∧ (sc = 0 ∨ sc = 2 ∨ sc = 3 ∨ sc = 5)

/-- C7 (amended): both Misalignment bonuses carry the source's
`amp(1x) > 0` guard; apart from the +3 and +2 bonuses the score takes no
other contributions. -/
theorem misalignmentScore_spec (harmonics : List EngineHarm) (rf : ℚ) :
    MisalignmentScoreProp harmonics rf := by
  unfold MisalignmentScoreProp misalignmentScore
  by_cases h1 : 0 < get_amplitude_at_multiple harmonics 1 rf
  · by_cases h2 : get_amplitude_at_multiple harmonics 1 rf * (3 / 10)
        < get_amplitude_at_multiple harmonics 2 rf <;>
      by_cases h3 : get_amplitude_at_multiple harmonics 1 rf * (3 / 20)
          < get_amplitude_at_multiple harmonics 3 rf <;>
      simp [h1, h2, h3]
  · simp [h1]

/-- Witness for C7 at a concrete pattern with a dominant 1× and an elevated
2× (score 3). -/
theorem misalignmentScore_spec_witness :
    MisalignmentScoreProp [⟨some 10, none, some 2⟩, ⟨some 20, none, some 1⟩] 10 :=
  misalignmentScore_spec [⟨some 10, none, some 2⟩, ⟨some 20, none, some 1⟩] 10

/-- A peak returned by `find_peak_in_band` is a point of the spectrum. -/
theorem find_peak_in_band_some_mem (s : List (ℚ × ℚ)) (center tol : ℚ) (pk : Peak)
    (h : find_peak_in_band s center tol = some pk) : (pk.frequency, pk.amplitude) ∈ s := by
  unfold find_peak_in_band at h
  by_cases hc : center ≤ 0
  · rw [if_pos hc] at h
    exact absurd h (by simp)
  · rw [if_neg hc] at h
    simp only [Option.map_eq_some'] at h
    obtain ⟨q, hq, hpk⟩ := h
    have hmem := List.mem_of_mem_filter (argmaxFirst_mem _ hq)
    rw [← hpk]
    simpa using hmem

/-- The harmonic loop IS the claim's phrase: take orders while the target
stays within the spectrum's maximum frequency, keep those with a peak. -/
theorem detectHarmonicsLoop_eq_takeWhile (s : List (ℚ × ℚ)) (rf ref maxF : ℚ) (ns : List ℕ) :
    detectHarmonicsLoop s rf ref maxF ns
      = ((ns.takeWhile (fun (n : ℕ) => decide (rf * (n : ℚ) ≤ maxF))).filterMap
          (fun (n : ℕ) =>
            (find_peak_in_band s (rf * (n : ℚ)) (1 / 20)).map (mkHarmonicEntry rf ref n))) := by
  induction ns with
  | nil => rfl
  | cons n ns ih =>
    unfold detectHarmonicsLoop
    by_cases h : maxF < rf * n
    · rw [if_pos h]
      have htw : List.takeWhile (fun (m : ℕ) => decide (rf * (m : ℚ) ≤ maxF)) (n :: ns) = [] := by
        simp [List.takeWhile_cons, not_le.mpr h]
      rw [htw]
      rfl
    · rw [if_neg h]
      have htw : List.takeWhile (fun (m : ℕ) => decide (rf * (m : ℚ) ≤ maxF)) (n :: ns)
          = n :: List.takeWhile (fun (m : ℕ) => decide (rf * (m : ℚ) ≤ maxF)) ns := by
        simp [List.takeWhile_cons, not_lt.mp h]
      rw [htw, List.filterMap_cons]
      cases hp : find_peak_in_band s (rf * (n : ℚ)) (1 / 20) <;>
        simp only [hp, Option.map_none', Option.map_some'] <;>
        rw [ih]

/-- Every emitted harmonic entry arises from a found peak at its order. -/
theorem detectHarmonicsLoop_mem (s : List (ℚ × ℚ)) (rf ref maxF : ℚ) (ns : List ℕ)
    (h : HarmonicEntry) (hmem : h ∈ detectHarmonicsLoop s rf ref maxF ns) :
    ∃ (n : ℕ) (p : Peak),
      find_peak_in_band s (rf * (n : ℚ)) (1 / 20) = some p ∧ h = mkHarmonicEntry rf ref n p := by
  induction ns with
  | nil => exact absurd hmem (by simp [detectHarmonicsLoop])
  | cons n ns ih =>
    unfold detectHarmonicsLoop at hmem
    by_cases hb : maxF < rf * n
    · rw [if_pos hb] at hmem
      exact absurd hmem (by simp)
    · rw [if_neg hb] at hmem
      cases hp : find_peak_in_band s (rf * n) (1 / 20) with
      | none =>
        rw [hp] at hmem
        exact ih hmem
      | some p =>
        rw [hp] at hmem
        rcases List.mem_cons.mp hmem with h1 | h1
        · exact ⟨n, p, hp, h1⟩
        · exact ih h1

/-- The property claim C5 asserts of `detect_harmonics` at a spectrum `s`
and running frequency `rf`: the harmonic list examines orders 1..10,
stopping at the first order whose target `n × rf` exceeds the spectrum's
maximum frequency and keeping an entry per found in-band peak; and an entry
is significant exactly when its amplitude is ≥ reference × 0.1, with
reference the 1× peak's amplitude or 0.1 when no 1× peak exists. -/
def DetectHarmonicsSpecProp (s : List (ℚ × ℚ)) (rf : ℚ) : Prop :=
  let ref := ((find_peak_in_band s rf (1 / 20)).map Peak.amplitude).getD (1 / 10)
  detect_harmonics s rf
      = (((List.range' 1 10).takeWhile (fun (n : ℕ) => decide (rf * (n : ℚ) ≤ lastFreq s))).filterMap
          (fun (n : ℕ) =>
            (find_peak_in_band s (rf * (n : ℚ)) (1 / 20)).map (mkHarmonicEntry rf ref n)))
    ∧ ∀ h ∈ detect_harmonics s rf, (h.isSignificant = true ↔ ref * (1 / 10) ≤ h.amplitude)

/-- C5: for every nonempty spectrum (Python indexes `freqs[-1]`, so a
maximum frequency must exist) and running frequency `rf > 0`,
`detect_harmonics` examines orders 1..10, stops at the first order whose
target exceeds the maximum bin frequency, and marks a detected harmonic
significant exactly when its amplitude is ≥ reference × 0.1 where the
reference is the 1× peak amplitude, or 0.1 when no 1× peak exists. -/
theorem detect_harmonics_spec (s : List (ℚ × ℚ)) (_hne : s ≠ []) (rf : ℚ) (hrf : 0 < rf) :
    DetectHarmonicsSpecProp s rf := by
  have hup : detect_harmonics s rf
      = detectHarmonicsLoop s rf
          (((find_peak_in_band s rf (1 / 20)).map Peak.amplitude).getD (1 / 10))
          (lastFreq s) (List.range' 1 10) := by
    unfold detect_harmonics
    rw [if_neg (not_le.mpr hrf)]
  constructor
  · rw [hup, detectHarmonicsLoop_eq_takeWhile]
  · intro h hmem
    rw [hup] at hmem
    obtain ⟨n, p, hp, rfl⟩ := detectHarmonicsLoop_mem _ _ _ _ _ _ hmem
    simp [mkHarmonicEntry]

/-- Witness for C5 on a four-bin spectrum with running frequency 5 Hz
(orders 1–3 are in range, all three peaks exist). -/
theorem detect_harmonics_spec_witness :
    DetectHarmonicsSpecProp [((0 : ℚ), 0), (5, 2), (10, 5), (15, 1)] 5 :=
  detect_harmonics_spec [((0 : ℚ), 0), (5, 2), (10, 5), (15, 1)] (by simp) 5 (by norm_num)

/-- Every fixed-frequency detection reports the frequency of a spectrum
point. -/
theorem detect_fixed_frequencies_mem (s : List (ℚ × ℚ)) (q : FixedPeak)
    (hq : q ∈ detect_fixed_frequencies s) :
    ∃ p : Peak, (p.frequency, p.amplitude) ∈ s ∧ q.detectedFrequency = p.frequency := by
  unfold detect_fixed_frequencies at hq
  obtain ⟨t, _ht, hsome⟩ := List.mem_filterMap.mp hq
  by_cases hskip : lastFreq s < t
  · rw [if_pos hskip] at hsome
    exact absurd hsome (by simp)
  · rw [if_neg hskip] at hsome
    simp only [Option.map_eq_some'] at hsome
    obtain ⟨p, hp, hqdef⟩ := hsome
    exact ⟨p, find_peak_in_band_some_mem s t (1 / 20) p hp, by rw [← hqdef]⟩

/-- The property claim C10 asserts of `perform_complete_analysis` on an
accepted input: the analysis succeeds, the spectrum it searches is nonempty
(so the legacy full-range fallback is never taken) and contains only bins
strictly below `fmax = min(12 × running_freq, sample_rate / 2)`, and every
reported harmonic and fixed-frequency peak is detected strictly below that
bound. -/
def SpectrumBoundProp (raw : List ℚ) (SR r : ℚ) (amps : List ℚ) : Prop :=
  match perform_complete_analysis raw SR (some r) amps with
  | .error _ => False
  | .ok res =>
    res.spectrum ≠ []
      ∧ (∀ p ∈ res.spectrum, p.1 < min (r / 60 * 12) (SR / 2))
      ∧ (∀ h ∈ res.harmonics, h.detectedFrequency < min (r / 60 * 12) (SR / 2))
      ∧ (∀ q ∈ res.fixedFrequencyPeaks, q.detectedFrequency < min (r / 60 * 12) (SR / 2))

/-- C10: for every accepted input (`rpm > 0`, `sample_rate > 0`, ≥ 100
samples, with the averaged block FFT delivering its `blockSize // 2` bins),
the spectrum used for peak, harmonic, fixed-frequency and RMS analysis
contains only bins strictly below `min(12 × running_freq, sample_rate / 2)`,
and no harmonic or fixed-frequency peak is reported at or above that bound,
whatever the amplitude content. -/
theorem perform_complete_analysis_spectrum_bound (raw : List ℚ) (SR r : ℚ) (amps : List ℚ)
    (hr : 0 < r) (hSR : 0 < SR) (hlen : 100 ≤ raw.length)
    (hamps : amps.length = min 20000 raw.length / 2) : SpectrumBoundProp raw SR r amps := by
  have hok : perform_complete_analysis raw SR (some r) amps
      = .ok
        { runningFrequency := r / 60
          fmax := min (r / 60 * 12) (SR / 2)
          spectrum := velocitySpectrum SR amps (min (r / 60 * 12) (SR / 2))
          peakAt1x := find_peak_in_band
            (velocitySpectrum SR amps (min (r / 60 * 12) (SR / 2))) (r / 60) (1 / 20)
          harmonics := detect_harmonics
            (velocitySpectrum SR amps (min (r / 60 * 12) (SR / 2))) (r / 60)
          fixedFrequencyPeaks := detect_fixed_frequencies
            (velocitySpectrum SR amps (min (r / 60 * 12) (SR / 2))) } := by
    unfold perform_complete_analysis
    dsimp only
    rw [if_neg (not_le.mpr hr), if_neg (by omega), if_neg (not_le.mpr hSR)]
  have hfmax : 0 < min (r / 60 * 12) (SR / 2) := by
    apply lt_min <;> linarith
  have hbins : ∀ p ∈ velocitySpectrum SR amps (min (r / 60 * 12) (SR / 2)),
      p.1 < min (r / 60 * 12) (SR / 2) := by
    intro p hp
    have := List.of_mem_filter hp
    simpa using this
  unfold SpectrumBoundProp
  rw [hok]
  refine ⟨?_, hbins, ?_, ?_⟩
  · have hM : 1 ≤ amps.length := by
      have : 50 ≤ min 20000 raw.length / 2 := by omega
      omega
    obtain ⟨a, arest, ha⟩ : ∃ a arest, amps = a :: arest := by
      cases amps with
      | nil => simp at hM
      | cons a arest => exact ⟨a, arest, rfl⟩
    obtain ⟨rest, hlin⟩ := linspace_head (SR / 2) amps.length hM
    unfold velocitySpectrum
    rw [hlin]
    rw [ha]
    simp only [List.zip_cons_cons, List.filter_cons]
    rw [if_pos (by simpa using hfmax)]
    simp
  · intro h hmem
    obtain ⟨n, p, hp, rfl⟩ := detectHarmonicsLoop_mem _ _ _ _ _ _ (by
      have hup : detect_harmonics
          (velocitySpectrum SR amps (min (r / 60 * 12) (SR / 2))) (r / 60)
          = detectHarmonicsLoop (velocitySpectrum SR amps (min (r / 60 * 12) (SR / 2))) (r / 60)
              (((find_peak_in_band (velocitySpectrum SR amps (min (r / 60 * 12) (SR / 2)))
                  (r / 60) (1 / 20)).map Peak.amplitude).getD (1 / 10))
              (lastFreq (velocitySpectrum SR amps (min (r / 60 * 12) (SR / 2))))
              (List.range' 1 10) := by
        unfold detect_harmonics
        rw [if_neg (not_le.mpr (by linarith))]
      rw [hup] at hmem
      exact hmem)
    have := hbins _ (find_peak_in_band_some_mem _ _ _ _ hp)
    simpa [mkHarmonicEntry] using this
  · intro q hq
    obtain ⟨p, hpmem, hfreq⟩ := detect_fixed_frequencies_mem _ q hq
    rw [hfreq]
    exact hbins _ hpmem

/-- Witness for C10: 100 zero samples at 100 Hz, rpm 600 (running frequency
10 Hz, so `fmax = min(120, 50) = 50`), with the 50 delivered FFT bins. -/
theorem perform_complete_analysis_spectrum_bound_witness :
    SpectrumBoundProp (List.replicate 100 0) 100 600 (List.replicate 50 1) :=
  perform_complete_analysis_spectrum_bound (List.replicate 100 0) 100 600 (List.replicate 50 1)
    (by norm_num) (by norm_num) (by simp) (by simp)

/-- Counterexample to C1 as stated: take the (reachable, e.g. for
`rpm = 48` where `fmax = 9.6 Hz < 10 Hz`) spectrum `[(0, 3), (5, 4)]` with
running frequency 5 Hz.  No bin lies in the 10–1000 Hz band, so the claim's
band RMS is 0 and its value is the 1× amplitude 4 — but the source falls
back to the RMS over ALL amplitudes, `sqrt(3² + 4²) = 5`.  The first
conjunct is the source's selection (lines 773–786 composed), the second the
claim's formula. -/
theorem velocity_rms_band_counterexample :
    max (if relevantAmplitudes [((0 : ℚ), (3 : ℚ)), (5, 4)] = [] then (0 : ℝ)
        else Real.sqrt ((sumSquares (relevantAmplitudes [((0 : ℚ), (3 : ℚ)), (5, 4)]) : ℚ) : ℝ))
      ((velocityRms1x [((0 : ℚ), (3 : ℚ)), (5, 4)] 5 : ℚ) : ℝ) = 5
    ∧ max (Real.sqrt ((sumSquares (claimBandAmplitudes [((0 : ℚ), (3 : ℚ)), (5, 4)]) : ℚ) : ℝ))
        ((velocityRms1x [((0 : ℚ), (3 : ℚ)), (5, 4)] 5 : ℚ) : ℝ) = 4
    ∧ (5 : ℝ) ≠ 4 := by
  have h1 : relevantAmplitudes [((0 : ℚ), (3 : ℚ)), (5, 4)] = [3, 4] := by
    norm_num [relevantAmplitudes, bandAmplitudes, lastFreqD1000]
  have h2 : sumSquares [(3 : ℚ), 4] = 25 := by norm_num [sumSquares]
  have h3 : velocityRms1x [((0 : ℚ), (3 : ℚ)), (5, 4)] 5 = 4 := by
    norm_num [velocityRms1x, find_peak_in_band, argmaxFirst, List.filter]
  have h4 : claimBandAmplitudes [((0 : ℚ), (3 : ℚ)), (5, 4)] = [] := by
    norm_num [claimBandAmplitudes]
  have h5 : Real.sqrt ((25 : ℚ) : ℝ) = 5 := by
    rw [show ((25 : ℚ) : ℝ) = 5 ^ 2 by norm_num]
    exact Real.sqrt_sq (by norm_num)
  refine ⟨?_, ?_, by norm_num⟩
  · rw [h1, h2, h3, if_neg (by simp), h5]
    norm_num
  · rw [h3, h4, show sumSquares ([] : List ℚ) = 0 from rfl]
    norm_num

/-- The property of claim C1 as amended by the source's empty-band
fallback.  The left side composes the source lines 773–786: the guarded
`np.sqrt` over `relevant_amps` (band amplitudes, or ALL amplitudes when no
bin frequency lies in `[10, min(1000, freqs[-1])]`) maxed with the 1× peak
amplitude.  The right side is the claim's formula with the 10–1000 Hz band
of the spec's words, amended only by the same all-amplitudes fallback. -/
def AmendedVelocityRmsProp (s : List (ℚ × ℚ)) (rf : ℚ) : Prop :=
  max (if relevantAmplitudes s = [] then (0 : ℝ)
      else Real.sqrt ((sumSquares (relevantAmplitudes s) : ℚ) : ℝ))
    ((velocityRms1x s rf : ℚ) : ℝ)
    = max (Real.sqrt ((sumSquares (amendedRelevantAmplitudes s) : ℚ) : ℝ))
        ((velocityRms1x s rf : ℚ) : ℝ)

/-- C1 (amended): for every spectrum whose bin frequencies do not exceed
the last bin frequency (true of every FFT spectrum, whose frequency axis is
ascending), the velocity RMS value passed to severity classification equals
the larger of (a) the root of the summed squared amplitudes over the
10–1000 Hz band — taken over ALL spectrum amplitudes when no bin lies in
that band — and (b) the amplitude of the detected 1× peak (0 when no 1×
peak exists). -/
theorem velocity_rms_amended (s : List (ℚ × ℚ)) (rf : ℚ)
    (hlast : ∀ p ∈ s, p.1 ≤ lastFreqD1000 s) : AmendedVelocityRmsProp s rf := by
  have hband : bandAmplitudes s = claimBandAmplitudes s := by
    unfold bandAmplitudes claimBandAmplitudes
    congr 1
    apply List.filter_congr
    intro p hp
    have hp1 := hlast p hp
    by_cases h10 : 10 ≤ p.1
    · by_cases hup : p.1 ≤ 1000
      · simp [h10, hup, le_min hup hp1]
      · simp only [decide_eq_decide]
        constructor
        · intro hand
          exact ⟨hand.1, le_trans hand.2 (min_le_left _ _)⟩
        · intro hand
          exact absurd hand.2 hup
    · simp [h10]
  have hrel : relevantAmplitudes s = amendedRelevantAmplitudes s := by
    unfold relevantAmplitudes amendedRelevantAmplitudes
    rw [hband]
  unfold AmendedVelocityRmsProp
  rw [velocityRmsOverall_eq_sqrt, hrel]

/-- Witness for C1 (amended) on an ascending two-bin spectrum with one bin
inside the 10–1000 Hz band. -/
theorem velocity_rms_amended_witness :
    AmendedVelocityRmsProp [((5 : ℚ), (1 : ℚ)), (20, 2)] 5 :=
  velocity_rms_amended [((5 : ℚ), (1 : ℚ)), (20, 2)] 5 (by
    norm_num [lastFreqD1000])

/-- The property claim C3 asserts of `perform_enhanced_diagnosis` under a
valid RPM and nonempty harmonics: a fault is detected exactly when its score
is ≥ 4; when some fault is detected, the reported fault is a detected fault
of maximal score (the source breaks ties by catalogue insertion order); and
when no fault scores ≥ 4 and the High Vibration score is < 3, the result is
"High Vibration"/Medium if the severity zone is C or D and "Normal"/High
otherwise.  (With a High Vibration score < 3 the zone can in fact not be C
or D, so the first branch is vacuous — exactly as the source has it.) -/
def DiagnosisSelectionProp (r : ℚ) (harmonics : List EngineHarm) (running_freq : Option ℚ)
    (severity_zone : Option Zone) (velocity_rms : Option ℚ) : Prop :=
  let rf := effectiveRunningFreq r running_freq
  let L := faultScoreList harmonics rf severity_zone velocity_rms
  let R := perform_enhanced_diagnosis (some r) harmonics running_freq severity_zone velocity_rms
  (∀ p ∈ L, (p ∈ detectedFaults harmonics rf severity_zone velocity_rms ↔ 4 ≤ p.2))
    ∧ ((∃ p ∈ L, 4 ≤ p.2) → ∃ p ∈ L, R.fault = p.1 ∧ 4 ≤ p.2 ∧ ∀ q ∈ L, q.2 ≤ p.2)
    ∧ ((∀ p ∈ L, p.2 < 4) → highVibrationScore severity_zone velocity_rms < 3 →
        ((severity_zone = some Zone.C ∨ severity_zone = some Zone.D) →
            R = ⟨"High Vibration", Confidence.medium⟩)
          ∧ (¬(severity_zone = some Zone.C ∨ severity_zone = some Zone.D) →
              R = ⟨"Normal", Confidence.high⟩))

/-- C3: in `perform_enhanced_diagnosis` with a valid RPM and nonempty
harmonics, detection is exactly score ≥ 4, the reported fault maximizes the
score among all faults when any is detected, and the no-detection/low-High
Vibration fallback yields "High Vibration"/Medium for zone C or D and
"Normal"/High otherwise. -/
theorem perform_enhanced_diagnosis_selection (r : ℚ) (hr : 0 < r)
    (harmonics : List EngineHarm) (hne : harmonics ≠ []) (running_freq : Option ℚ)
    (severity_zone : Option Zone) (velocity_rms : Option ℚ) :
    DiagnosisSelectionProp r harmonics running_freq severity_zone velocity_rms := by
  have hvalid : ¬(rpmInvalid (some r) ∨ harmonics = []) := by
    rintro (hinv | hnil)
    · simp only [rpmInvalid] at hinv
      exact absurd hinv (not_le.mpr hr)
    · exact hne hnil
  have hR : perform_enhanced_diagnosis (some r) harmonics running_freq severity_zone velocity_rms
      = match argmaxFirst (fun p => p.2)
            (detectedWithFallback harmonics (effectiveRunningFreq r running_freq)
              severity_zone velocity_rms) with
        | none =>
          if severity_zone = some Zone.C ∨ severity_zone = some Zone.D then
            ⟨"High Vibration", Confidence.medium⟩
          else ⟨"Normal", Confidence.high⟩
        | some best =>
          ⟨best.1,
            if (severity_zone = some Zone.C ∨ severity_zone = some Zone.D)
                ∧ (if 6 ≤ best.2 then Confidence.high
                   else if 4 ≤ best.2 then Confidence.medium else Confidence.low)
                  = Confidence.medium then
              Confidence.high
            else
              if 6 ≤ best.2 then Confidence.high
              else if 4 ≤ best.2 then Confidence.medium else Confidence.low⟩ := by
    unfold perform_enhanced_diagnosis
    rw [if_neg hvalid]
    dsimp only [Option.getD]
  refine ⟨?_, ?_, ?_⟩
  · intro p hp
    unfold detectedFaults
    rw [List.mem_filter]
    simp [hp]
  · rintro ⟨p0, hp0, hp04⟩
    have hp0det : p0 ∈ detectedFaults harmonics (effectiveRunningFreq r running_freq)
        severity_zone velocity_rms :=
      List.mem_filter.mpr ⟨hp0, by simpa using hp04⟩
    have hdet_ne : detectedFaults harmonics (effectiveRunningFreq r running_freq)
        severity_zone velocity_rms ≠ [] := by
      intro hnil
      rw [hnil] at hp0det
      exact absurd hp0det (List.not_mem_nil _)
    have hfb : detectedWithFallback harmonics (effectiveRunningFreq r running_freq)
        severity_zone velocity_rms
        = detectedFaults harmonics (effectiveRunningFreq r running_freq)
            severity_zone velocity_rms := by
      unfold detectedWithFallback
      rw [if_neg]
      rintro ⟨h1, _⟩
      exact hdet_ne h1
    cases hbest : argmaxFirst (fun p => p.2)
        (detectedFaults harmonics (effectiveRunningFreq r running_freq)
          severity_zone velocity_rms) with
    | none => exact absurd ((argmaxFirst_eq_none_iff _ _).mp hbest) hdet_ne
    | some best =>
      have hbmem := argmaxFirst_mem _ hbest
      have hbL := List.mem_filter.mp hbmem
      have hb4 : 4 ≤ best.2 := by simpa using hbL.2
      refine ⟨best, hbL.1, ?_, hb4, ?_⟩
      · rw [hR, hfb, hbest]
      · intro q hq
        by_cases hq4 : 4 ≤ q.2
        · exact argmaxFirst_le _ hbest q (List.mem_filter.mpr ⟨hq, by simpa using hq4⟩)
        · omega
  · intro hall hhv
    have hdetnil : detectedFaults harmonics (effectiveRunningFreq r running_freq)
        severity_zone velocity_rms = [] := by
      unfold detectedFaults
      refine List.filter_eq_nil_iff.mpr ?_
      intro p hp
      have := hall p hp
      simp only [decide_eq_true_eq]
      omega
    have hfb : detectedWithFallback harmonics (effectiveRunningFreq r running_freq)
        severity_zone velocity_rms = [] := by
      unfold detectedWithFallback
      rw [if_neg, hdetnil]
      rintro ⟨_, h3⟩
      omega
    constructor
    · intro hz
      rw [hR, hfb]
      simp only [argmaxFirst]
      rw [if_pos hz]
    · intro hz
      rw [hR, hfb]
      simp only [argmaxFirst]
      rw [if_neg hz]

/-- Witness for C3: one dominant 1× harmonic (amplitude 5 at 10 Hz) gives
Unbalance score 5 ≥ 4, so some fault is detected and the selection clause
is exercised. -/
theorem perform_enhanced_diagnosis_selection_witness :
    DiagnosisSelectionProp 10 [⟨some 10, none, some 5⟩] (some 10) none none :=
  perform_enhanced_diagnosis_selection 10 (by norm_num) [⟨some 10, none, some 5⟩]
    (by simp) (some 10) none none

/-- C4: evaluation of the aggregation at the failing input.  Axis H is
available with a Low-confidence "Normal" diagnosis, axis V with a
Medium-confidence "Unbalance" diagnosis, axis A unavailable.  The claim —
and the source's own comment "Use the diagnosis with highest confidence" —
require the Medium diagnosis, but the loop replaces the current selection
only when a later diagnosis is High-confidence, so the code returns the
first (Low) one: `overallDiagnosis` yields "Normal" while the claim's
highest-confidence pick (`claimDiagnosisPick`) yields "Unbalance". -/
theorem overall_diagnosis_confidence_bug :
    (overallDiagnosis
        [⟨true, some ⟨Zone.A, 0⟩, some ⟨"Normal", Confidence.low, ["e1"], some 1⟩⟩,
         ⟨true, some ⟨Zone.A, 0⟩, some ⟨"Unbalance", Confidence.medium, ["e2"], some 2⟩⟩,
         ⟨false, none, none⟩]).map DiagObj.fault = some "Normal"
      ∧ (claimDiagnosisPick
          [⟨true, some ⟨Zone.A, 0⟩, some ⟨"Normal", Confidence.low, ["e1"], some 1⟩⟩,
           ⟨true, some ⟨Zone.A, 0⟩, some ⟨"Unbalance", Confidence.medium, ["e2"], some 2⟩⟩,
           ⟨false, none, none⟩]).map DiagObj.fault = some "Unbalance"
      ∧ confIdx Confidence.low < confIdx Confidence.medium := by
  refine ⟨?_, ?_, by decide⟩ <;>
    simp [overallDiagnosis, claimDiagnosisPick, availDiagnoses, pickDiagnosis, argmaxFirst,
      allEvidence, maxHarmonicCount, dedupFirst, confIdx, List.filterMap]

end FaultDetection
